import Mathlib

/-
Verification of the storage/session/cleanup subsystem of the instant_quote
repository (backend/services/storage_service.py, backend/main.py,
backend/config/storage.py), via a shallow embedding in Lean 4.

Python dictionaries are modelled as association lists with first-match
lookup, key-replacing insert and key-dropping erase; Python sets of strings
are modelled as duplicate-free lists with guarded insert and discard.
Timestamps are modelled as integers (hours), file contents as lists of
bytes (naturals), and the SHA-256 digest as an abstract function
parameter from contents to strings (the digest of identical bytes is
identical because it is a function; a real hex digest is never the empty
string, which matters for the truthiness test in the Python code).
-/

namespace InstantQuote

/-- First-match lookup in an association list, modelling `dict.get` /
`dict[k]` membership tests. -/
def lookupA {β : Type} (k : String) : List (String × β) → Option β
  | [] => none
  | p :: rest => if p.1 = k then some p.2 else lookupA k rest

/-- Key-replacing insert, modelling `dict[k] = v`. -/
def insertA {β : Type} (k : String) (v : β) : List (String × β) → List (String × β)
  | [] => [(k, v)]
  | p :: rest => if p.1 = k then (k, v) :: rest else p :: insertA k v rest

/-- Key-dropping erase, modelling `del dict[k]` guarded by a membership
test (erasing an absent key leaves the list unchanged). -/
def eraseA {β : Type} (k : String) : List (String × β) → List (String × β)
  | [] => []
  | p :: rest => if p.1 = k then eraseA k rest else p :: eraseA k rest

/-- Guarded insert into a duplicate-free list, modelling `set.add`. -/
def insertSet (h : String) (s : List String) : List String :=
  if h ∈ s then s else h :: s

/-- Removal from a list, modelling `set.discard`. -/
def discardSet (h : String) : List String → List String
  | [] => []
  | x :: rest => if x = h then discardSet h rest else x :: discardSet h rest

/-- Sidecar metadata record written by `_save_local`: the JSON object
`{"upload_time": ..., "original_filename": ...}`. -/
structure Meta where
  upload_time : Int
  original_filename : String
deriving DecidableEq, Repr

/-- The local upload directory: blob files keyed by stored filename, and
`.meta` sidecar files keyed by the stored filename they describe. -/
structure LocalDisk where
  blobs : List (String × List Nat)
  metas : List (String × Meta)
deriving DecidableEq, Repr

/-- The in-memory session state of `StorageService.__init__`:
`_session_file_hashes : Dict[str, Set[str]]` and
`_session_filename_hashes : Dict[str, Dict[str, str]]`. -/
structure SessionLedger where
  session_file_hashes : List (String × List String)
  session_filename_hashes : List (String × List (String × String))
deriving DecidableEq, Repr

/-- Combined state of the service: the session ledger plus the local
storage directory. -/
structure SysState where
  svc : SessionLedger
  disk : LocalDisk
deriving DecidableEq, Repr

/-- Return value of `save_file_with_duplicate_check`, mirroring the Python
5-tuple `(is_duplicate_hash, is_same_name_different_content,
stored_filename, access_url, file_hash)`. -/
structure DupCheckResult where
  is_duplicate_hash : Bool
  is_same_name_different_content : Bool
  stored_filename : Option String
  access_url : Option String
  file_hash : String
deriving DecidableEq, Repr

/-- Outcome of the `/download/{filename}` endpoint in `main.py`: a file
response with the blob's bytes, HTTP 404, or HTTP 501 for S3 mode. -/
inductive DownloadResult where
  | fileResponse (content : List Nat)
  | notFound
  | unsupported
deriving DecidableEq, Repr

/-- `StorageService.is_duplicate_in_session`: returns
`(is_duplicate_hash, is_same_name_different_content)`.  The early return
fires when the session id is not a key of `_session_file_hashes`; the
name-conflict flag requires the previously registered hash to be truthy
(a non-empty string) and different from the incoming hash. -/
def is_duplicate_in_session (svc : SessionLedger) (session_id file_hash filename : String) :
    Bool × Bool :=
  match lookupA session_id svc.session_file_hashes with
  | none => (false, false)
  | some hashes =>
    let is_dup_hash := decide (file_hash ∈ hashes)
    let is_same_name :=
      match lookupA session_id svc.session_filename_hashes with
      | none => false
      | some fm =>
        match lookupA filename fm with
        | none => false
        | some existing_hash =>
          decide (existing_hash ≠ "") && decide (existing_hash ≠ file_hash)
    (is_dup_hash, is_same_name)

/-- `StorageService.add_file_to_session`: ensures both per-session
containers exist, then adds the hash to the session's set and maps the
filename to the hash. -/
def add_file_to_session (svc : SessionLedger) (session_id file_hash filename : String) :
    SessionLedger :=
  let hs := (lookupA session_id svc.session_file_hashes).getD []
  let fm := (lookupA session_id svc.session_filename_hashes).getD []
  { session_file_hashes := insertA session_id (insertSet file_hash hs) svc.session_file_hashes
    session_filename_hashes := insertA session_id (insertA filename file_hash fm) svc.session_filename_hashes }

/-- `StorageService.clear_session`: deletes the session's entry from both
maps when present. -/
def clear_session (svc : SessionLedger) (session_id : String) : SessionLedger :=
  { session_file_hashes := eraseA session_id svc.session_file_hashes
    session_filename_hashes := eraseA session_id svc.session_filename_hashes }

/-- `StorageService.get_session_file_count`: size of the session's hash
set, `0` for an unknown session. -/
def get_session_file_count (svc : SessionLedger) (session_id : String) : Nat :=
  match lookupA session_id svc.session_file_hashes with
  | none => 0
  | some hs => hs.length

/-- `StorageService.remove_file_from_session`: looks up the hash bound to
the filename; a missing session, missing filename, or falsy (empty) hash
returns `false`; otherwise the hash is discarded from the session's set,
the filename mapping is deleted, and `true` is returned. -/
def remove_file_from_session (svc : SessionLedger) (session_id filename : String) :
    Bool × SessionLedger :=
  match lookupA session_id svc.session_filename_hashes with
  | none => (false, svc)
  | some fm =>
    match lookupA filename fm with
    | none => (false, svc)
    | some file_hash =>
      if file_hash = "" then (false, svc)
      else
        let sfh :=
          match lookupA session_id svc.session_file_hashes with
          | none => svc.session_file_hashes
          | some hs => insertA session_id (discardSet file_hash hs) svc.session_file_hashes
        (true,
          { session_file_hashes := sfh
            session_filename_hashes := insertA session_id (eraseA filename fm) svc.session_filename_hashes })

/-- First half of `StorageService._save_local`: write the blob under the
generated filename. -/
def write_blob (d : LocalDisk) (filename : String) (content : List Nat) : LocalDisk :=
  { d with blobs := insertA filename content d.blobs }

/-- Second half of `StorageService._save_local`: write the `.meta` sidecar.
The Python code sets the sidecar's `original_filename` field to the
`filename` argument of `_save_local`, which is the generated unique name. -/
def write_meta (d : LocalDisk) (filename : String) (now : Int) : LocalDisk :=
  { d with metas := insertA filename { upload_time := now, original_filename := filename } d.metas }

/-- `StorageService._save_local`: writes the blob, then the metadata
sidecar, and returns `(filename, access_url)`. -/
def save_local (d : LocalDisk) (content : List Nat) (filename : String) (now : Int) :
    (String × String) × LocalDisk :=
  ((filename, "/download/" ++ filename), write_meta (write_blob d filename content) filename now)

/-- `StorageService._delete_local`: unlinks the blob and the sidecar when
each exists and returns `True` unconditionally (the `except` branch is
unreachable in this pure model of the filesystem). -/
def delete_local (d : LocalDisk) (filename : String) : Bool × LocalDisk :=
  (true, { blobs := eraseA filename d.blobs, metas := eraseA filename d.metas })

/-- One iteration of the sweep loop in
`StorageService._cleanup_local_files`: a sidecar record whose
`upload_time` is strictly before the cutoff `now - ttl` has both its blob
and its sidecar deleted via `_delete_local`; any other record is left
alone. -/
def sweepStep (now ttl : Int) (acc : LocalDisk) (p : String × Meta) : LocalDisk :=
  if p.2.upload_time < now - ttl then (delete_local acc p.1).2 else acc

/-- `StorageService._cleanup_local_files`: iterates over the `.meta`
sidecar files present at the start of the sweep, applying `sweepStep` to
each. -/
def cleanup_local_files (d : LocalDisk) (now ttl : Int) : LocalDisk :=
  d.metas.foldl (sweepStep now ttl) d

/-- `StorageService.save_file` in local mode: hashes the content,
generates a unique filename (modelled by the `genName` argument), saves
locally, then registers the original filename in the session when a
truthy (non-empty) session id is supplied — `if session_id:` in Python
skips both `None` and the empty string.  Returns `(stored_filename,
access_url, file_hash)`. -/
def save_file (hashFn : List Nat → String) (st : SysState) (content : List Nat)
    (original_filename : String) (session_id : Option String) (genName : String) (now : Int) :
    (String × String × String) × SysState :=
  let file_hash := hashFn content
  let saved := save_local st.disk content genName now
  let svc2 :=
    match session_id with
    | some sid =>
      if sid = "" then st.svc
      else add_file_to_session st.svc sid file_hash original_filename
    | none => st.svc
  ((saved.1.1, saved.1.2, file_hash), { svc := svc2, disk := saved.2 })

/-- `StorageService.save_file_with_duplicate_check`: hashes the content,
consults `is_duplicate_in_session`, and either aborts with one of the two
conflict flags set (returning `None` for the stored name and URL, leaving
all state untouched) or saves via `save_file`. -/
def save_file_with_duplicate_check (hashFn : List Nat → String) (st : SysState)
    (content : List Nat) (original_filename session_id genName : String) (now : Int) :
    DupCheckResult × SysState :=
  let file_hash := hashFn content
  let r := is_duplicate_in_session st.svc session_id file_hash original_filename
  if r.1 then (⟨true, false, none, none, file_hash⟩, st)
  else if r.2 then (⟨false, true, none, none, file_hash⟩, st)
  else
    let saved := save_file hashFn st content original_filename (some session_id) genName now
    (⟨false, false, some saved.1.1, some saved.1.2.1, file_hash⟩, saved.2)

/-- `StorageService.get_file`: in local mode, the path when the file
exists, else `None`; in S3 mode, always `None`. -/
def get_file (d : LocalDisk) (is_local : Bool) (filename : String) : Option String :=
  if is_local then
    if (lookupA filename d.blobs).isSome then some filename else none
  else none

/-- The `/download/{filename}` endpoint of `main.py`: local mode serves
the file's bytes or raises HTTP 404; S3 mode raises HTTP 501
("Direct download not implemented for S3 storage") before touching the
store. -/
def download_file (d : LocalDisk) (is_local : Bool) (filename : String) : DownloadResult :=
  if is_local then
    match get_file d true filename with
    | none => .notFound
    | some p =>
      match lookupA p d.blobs with
      | some c => .fileResponse c
      | none => .notFound
  else .unsupported

/-- The session's hash set as the code reads it: the tracked set, or empty
for an unknown session. -/
def sessionHashSet (svc : SessionLedger) (session_id : String) : List String :=
  (lookupA session_id svc.session_file_hashes).getD []

/-- The hash a filename is currently registered under in a session, if
any. -/
def registeredHash (svc : SessionLedger) (session_id filename : String) : Option String :=
  match lookupA session_id svc.session_filename_hashes with
  | none => none
  | some fm => lookupA filename fm

/-- Key coherence between the two per-session maps: a session id is
tracked in the hash-set map exactly when it is tracked in the
filename-to-hash map. -/
def KeyCoherent (svc : SessionLedger) : Prop :=
  ∀ sid, lookupA sid svc.session_file_hashes = none ↔
    lookupA sid svc.session_filename_hashes = none

/-- Every hash registered under a filename in a session is a member of
that session's hash set. -/
def HashesComplete (svc : SessionLedger) : Prop :=
  ∀ sid fm, lookupA sid svc.session_filename_hashes = some fm →
    ∀ f h, lookupA f fm = some h →
      ∃ hs, lookupA sid svc.session_file_hashes = some hs ∧ h ∈ hs

/-- Each session's hash set is duplicate-free (it models a Python `set`). -/
def SetsNodup (svc : SessionLedger) : Prop :=
  ∀ sid hs, lookupA sid svc.session_file_hashes = some hs → hs.Nodup

/-- Full well-formedness of the session ledger. -/
def LedgerInv (svc : SessionLedger) : Prop :=
  KeyCoherent svc ∧ HashesComplete svc ∧ SetsNodup svc

/-! ### Lemmas about the dictionary and set models -/

theorem lookupA_insertA_self {β : Type} (k : String) (v : β) (l : List (String × β)) :
    lookupA k (insertA k v l) = some v := by
  induction l with
  | nil => simp [insertA, lookupA]
  | cons p rest ih =>
    by_cases h : p.1 = k
    · simp [insertA, h, lookupA]
    · simp [insertA, h, lookupA, ih]

theorem lookupA_insertA_ne {β : Type} {k k' : String} (hne : k' ≠ k) (v : β)
    (l : List (String × β)) : lookupA k' (insertA k v l) = lookupA k' l := by
  have hkk : ¬ (k = k') := fun h => hne h.symm
  induction l with
  | nil => simp only [insertA, lookupA, if_neg hkk]
  | cons p rest ih =>
    by_cases h : p.1 = k
    · have hp : ¬ (p.1 = k') := by rw [h]; exact hkk
      simp only [insertA, if_pos h, lookupA, if_neg hkk, if_neg hp]
    · simp only [insertA, if_neg h, lookupA, ih]

theorem lookupA_eraseA_self {β : Type} (k : String) (l : List (String × β)) :
    lookupA k (eraseA k l) = none := by
  induction l with
  | nil => simp [eraseA, lookupA]
  | cons p rest ih =>
    by_cases h : p.1 = k
    · simp [eraseA, h, ih]
    · simp [eraseA, h, lookupA, ih]

theorem lookupA_eraseA_ne {β : Type} {k k' : String} (hne : k' ≠ k)
    (l : List (String × β)) : lookupA k' (eraseA k l) = lookupA k' l := by
  induction l with
  | nil => simp [eraseA]
  | cons p rest ih =>
    by_cases h : p.1 = k
    · have hp : ¬ (p.1 = k') := by rw [h]; exact fun hh => hne hh.symm
      simp only [eraseA, if_pos h, lookupA, if_neg hp, ih]
    · simp only [eraseA, if_neg h, lookupA, ih]

theorem lookupA_none_iff {β : Type} {k : String} {l : List (String × β)} :
    lookupA k l = none ↔ ∀ p ∈ l, p.1 ≠ k := by
  induction l with
  | nil => simp [lookupA]
  | cons p rest ih =>
    by_cases h : p.1 = k
    · simp [lookupA, h]
    · simp [lookupA, h, ih]

theorem eraseA_of_lookupA_none {β : Type} {k : String} {l : List (String × β)}
    (hl : lookupA k l = none) : eraseA k l = l := by
  induction l with
  | nil => simp [eraseA]
  | cons p rest ih =>
    rw [lookupA_none_iff] at hl
    have hp : p.1 ≠ k := hl p (List.mem_cons_self p rest)
    have hrest : lookupA k rest = none := by
      rw [lookupA_none_iff]
      exact fun q hq => hl q (List.mem_cons_of_mem p hq)
    simp [eraseA, hp, ih hrest]

theorem length_insertA_of_none {β : Type} {k : String} (v : β) {l : List (String × β)}
    (hl : lookupA k l = none) : (insertA k v l).length = l.length + 1 := by
  induction l with
  | nil => simp [insertA]
  | cons p rest ih =>
    rw [lookupA_none_iff] at hl
    have hp : p.1 ≠ k := hl p (List.mem_cons_self p rest)
    have hrest : lookupA k rest = none := by
      rw [lookupA_none_iff]
      exact fun q hq => hl q (List.mem_cons_of_mem p hq)
    simp [insertA, hp, ih hrest]

theorem mem_insertSet {x h : String} {s : List String} :
    x ∈ insertSet h s ↔ x = h ∨ x ∈ s := by
  by_cases hm : h ∈ s
  · constructor
    · intro hx
      simp only [insertSet, if_pos hm] at hx
      exact Or.inr hx
    · intro hx
      simp only [insertSet, if_pos hm]
      rcases hx with rfl | hx
      · exact hm
      · exact hx
  · simp [insertSet, if_neg hm]

theorem self_mem_insertSet (h : String) (s : List String) : h ∈ insertSet h s :=
  mem_insertSet.mpr (Or.inl rfl)

theorem insertSet_nodup {h : String} {s : List String} (hs : s.Nodup) :
    (insertSet h s).Nodup := by
  by_cases hm : h ∈ s
  · simpa [insertSet, if_pos hm] using hs
  · simp [insertSet, if_neg hm, List.nodup_cons, hm, hs]

theorem length_insertSet_of_not_mem {h : String} {s : List String} (hm : h ∉ s) :
    (insertSet h s).length = s.length + 1 := by
  simp [insertSet, if_neg hm]

theorem mem_discardSet {x h : String} {s : List String} :
    x ∈ discardSet h s ↔ x ∈ s ∧ x ≠ h := by
  induction s with
  | nil => simp [discardSet]
  | cons y rest ih =>
    by_cases hy : y = h
    · rw [discardSet, if_pos hy, ih, List.mem_cons]
      subst hy
      constructor
      · rintro ⟨hx, hne⟩
        exact ⟨Or.inr hx, hne⟩
      · rintro ⟨hx | hx, hne⟩
        · exact absurd hx hne
        · exact ⟨hx, hne⟩
    · rw [discardSet, if_neg hy, List.mem_cons, List.mem_cons, ih]
      constructor
      · rintro (rfl | ⟨hx, hne⟩)
        · exact ⟨Or.inl rfl, hy⟩
        · exact ⟨Or.inr hx, hne⟩
      · rintro ⟨hx | hx, hne⟩
        · exact Or.inl hx
        · exact Or.inr ⟨hx, hne⟩

theorem discardSet_nodup {h : String} {s : List String} (hs : s.Nodup) :
    (discardSet h s).Nodup := by
  induction s with
  | nil => simp [discardSet]
  | cons y rest ih =>
    rcases List.nodup_cons.mp hs with ⟨hy, hrest⟩
    by_cases hyh : y = h
    · rw [discardSet, if_pos hyh]
      exact ih hrest
    · rw [discardSet, if_neg hyh]
      refine List.nodup_cons.mpr ⟨?_, ih hrest⟩
      intro hmem
      exact hy (mem_discardSet.mp hmem).1

theorem discardSet_of_not_mem {h : String} {s : List String} (hm : h ∉ s) :
    discardSet h s = s := by
  induction s with
  | nil => simp [discardSet]
  | cons y rest ih =>
    have hy : y ≠ h := fun he => hm (he ▸ List.mem_cons_self y rest)
    have hrest : h ∉ rest := fun hr => hm (List.mem_cons_of_mem y hr)
    simp [discardSet, hy, ih hrest]

theorem length_discardSet {h : String} {s : List String} (hs : s.Nodup) (hm : h ∈ s) :
    (discardSet h s).length + 1 = s.length := by
  induction s with
  | nil => cases hm
  | cons y rest ih =>
    rcases List.nodup_cons.mp hs with ⟨hy, hrest⟩
    by_cases hyh : y = h
    · subst hyh
      rw [discardSet, if_pos rfl, discardSet_of_not_mem hy]
      simp
    · have hmr : h ∈ rest := by
        rcases List.mem_cons.mp hm with rfl | hr
        · exact absurd rfl hyh
        · exact hr
      simp only [discardSet, if_neg hyh, List.length_cons]
      rw [ih hrest hmr]

/-! ### Lemmas about the sweep -/

theorem exists_mem_cons_split {α : Type} {P : α → Prop} {a : α} {l : List α} :
    (∃ x ∈ a :: l, P x) ↔ P a ∨ ∃ x ∈ l, P x := by
  constructor
  · rintro ⟨p, hp, hpk⟩
    rcases List.mem_cons.mp hp with rfl | hp'
    · exact Or.inl hpk
    · exact Or.inr ⟨p, hp', hpk⟩
  · rintro (hq | ⟨p, hp, hpk⟩)
    · exact ⟨a, List.mem_cons_self a l, hq⟩
    · exact ⟨p, List.mem_cons_of_mem a hp, hpk⟩

theorem sweepStep_lookup_blobs (now ttl : Int) (d : LocalDisk) (q : String × Meta)
    (k : String) :
    lookupA k (sweepStep now ttl d q).blobs =
      if q.1 = k ∧ q.2.upload_time < now - ttl then none else lookupA k d.blobs := by
  by_cases hq : q.2.upload_time < now - ttl
  · by_cases hk : q.1 = k
    · rw [if_pos ⟨hk, hq⟩]
      simp only [sweepStep, if_pos hq, delete_local]
      rw [hk, lookupA_eraseA_self]
    · rw [if_neg (fun hc => hk hc.1)]
      simp only [sweepStep, if_pos hq, delete_local]
      exact lookupA_eraseA_ne (fun hc => hk hc.symm) d.blobs
  · rw [if_neg (fun hc => hq hc.2)]
    simp only [sweepStep, if_neg hq]

theorem sweepStep_lookup_metas (now ttl : Int) (d : LocalDisk) (q : String × Meta)
    (k : String) :
    lookupA k (sweepStep now ttl d q).metas =
      if q.1 = k ∧ q.2.upload_time < now - ttl then none else lookupA k d.metas := by
  by_cases hq : q.2.upload_time < now - ttl
  · by_cases hk : q.1 = k
    · rw [if_pos ⟨hk, hq⟩]
      simp only [sweepStep, if_pos hq, delete_local]
      rw [hk, lookupA_eraseA_self]
    · rw [if_neg (fun hc => hk hc.1)]
      simp only [sweepStep, if_pos hq, delete_local]
      exact lookupA_eraseA_ne (fun hc => hk hc.symm) d.metas
  · rw [if_neg (fun hc => hq hc.2)]
    simp only [sweepStep, if_neg hq]

theorem sweep_foldl_blobs (now ttl : Int) (ms : List (String × Meta)) (d : LocalDisk)
    (k : String) :
    lookupA k ((ms.foldl (sweepStep now ttl) d).blobs) =
      if ∃ p ∈ ms, p.1 = k ∧ p.2.upload_time < now - ttl then none
      else lookupA k d.blobs := by
  induction ms generalizing d with
  | nil => simp
  | cons q ms ih =>
    rw [List.foldl_cons, ih, sweepStep_lookup_blobs]
    by_cases hA : ∃ p ∈ ms, p.1 = k ∧ p.2.upload_time < now - ttl
    · rw [if_pos hA, if_pos (exists_mem_cons_split.mpr (Or.inr hA))]
    · rw [if_neg hA]
      by_cases hB : q.1 = k ∧ q.2.upload_time < now - ttl
      · rw [if_pos hB,
          if_pos ((exists_mem_cons_split (P := fun p : String × Meta => p.1 = k ∧ p.2.upload_time < now - ttl)).mpr (Or.inl hB))]
      · rw [if_neg hB,
          if_neg (fun hc => ((exists_mem_cons_split (P := fun p : String × Meta => p.1 = k ∧ p.2.upload_time < now - ttl)).mp hc).elim hB hA)]

theorem sweep_foldl_metas (now ttl : Int) (ms : List (String × Meta)) (d : LocalDisk)
    (k : String) :
    lookupA k ((ms.foldl (sweepStep now ttl) d).metas) =
      if ∃ p ∈ ms, p.1 = k ∧ p.2.upload_time < now - ttl then none
      else lookupA k d.metas := by
  induction ms generalizing d with
  | nil => simp
  | cons q ms ih =>
    rw [List.foldl_cons, ih, sweepStep_lookup_metas]
    by_cases hA : ∃ p ∈ ms, p.1 = k ∧ p.2.upload_time < now - ttl
    · rw [if_pos hA, if_pos (exists_mem_cons_split.mpr (Or.inr hA))]
    · rw [if_neg hA]
      by_cases hB : q.1 = k ∧ q.2.upload_time < now - ttl
      · rw [if_pos hB,
          if_pos ((exists_mem_cons_split (P := fun p : String × Meta => p.1 = k ∧ p.2.upload_time < now - ttl)).mpr (Or.inl hB))]
      · rw [if_neg hB,
          if_neg (fun hc => ((exists_mem_cons_split (P := fun p : String × Meta => p.1 = k ∧ p.2.upload_time < now - ttl)).mp hc).elim hB hA)]

theorem cleanup_lookup_blobs (d : LocalDisk) (now ttl : Int) (k : String) :
    lookupA k (cleanup_local_files d now ttl).blobs =
      if ∃ p ∈ d.metas, p.1 = k ∧ p.2.upload_time < now - ttl then none
      else lookupA k d.blobs :=
  sweep_foldl_blobs now ttl d.metas d k

theorem cleanup_lookup_metas (d : LocalDisk) (now ttl : Int) (k : String) :
    lookupA k (cleanup_local_files d now ttl).metas =
      if ∃ p ∈ d.metas, p.1 = k ∧ p.2.upload_time < now - ttl then none
      else lookupA k d.metas :=
  sweep_foldl_metas now ttl d.metas d k

theorem mem_of_lookupA {β : Type} {k : String} {v : β} {l : List (String × β)}
    (h : lookupA k l = some v) : (k, v) ∈ l := by
  induction l with
  | nil => simp [lookupA] at h
  | cons p rest ih =>
    by_cases hp : p.1 = k
    · rw [lookupA, if_pos hp] at h
      cases h
      rw [← hp]
      exact List.mem_cons_self p rest
    · rw [lookupA, if_neg hp] at h
      exact List.mem_cons_of_mem p (ih h)

theorem lookupA_eq_of_mem_nodup {β : Type} {k : String} {v : β} {l : List (String × β)}
    (hnd : (l.map Prod.fst).Nodup) (hm : (k, v) ∈ l) : lookupA k l = some v := by
  induction l with
  | nil => cases hm
  | cons p rest ih =>
    rw [List.map_cons, List.nodup_cons] at hnd
    rcases List.mem_cons.mp hm with heq | hm'
    · rw [← heq]
      simp [lookupA]
    · have hp : p.1 ≠ k := by
        intro hc
        exact hnd.1 (hc ▸ (List.mem_map.mpr ⟨(k, v), hm', rfl⟩))
      rw [lookupA, if_neg hp]
      exact ih hnd.2 hm'

/-! ### Claim theorems -/

/-- C3: whenever the duplicate-checked upload reports a conflict (hash
duplicate or name conflict) it aborts before touching the content store:
no stored name or access URL is produced and the entire state — local
disk and session ledger, hence also the session's hash set, filename map
and count — is returned unchanged. -/
theorem conflict_aborts_without_side_effects (hashFn : List Nat → String) (st : SysState)
    (content : List Nat) (ofn sid gen : String) (now : Int)
    (hconf : (save_file_with_duplicate_check hashFn st content ofn sid gen now).1.is_duplicate_hash = true
      ∨ (save_file_with_duplicate_check hashFn st content ofn sid gen now).1.is_same_name_different_content = true) :
    (save_file_with_duplicate_check hashFn st content ofn sid gen now).2 = st
    ∧ (save_file_with_duplicate_check hashFn st content ofn sid gen now).1.stored_filename = none
    ∧ (save_file_with_duplicate_check hashFn st content ofn sid gen now).1.access_url = none := by
  by_cases h1 : (is_duplicate_in_session st.svc sid (hashFn content) ofn).1 = true
  · simp [save_file_with_duplicate_check, if_pos h1]
  · by_cases h2 : (is_duplicate_in_session st.svc sid (hashFn content) ofn).2 = true
    · simp [save_file_with_duplicate_check, if_neg h1, if_pos h2]
    · exfalso
      simp only [save_file_with_duplicate_check, if_neg h1, if_neg h2] at hconf
      rcases hconf with hc | hc <;> simp at hc

/-- Witness for C3 at a concrete conflicting input: session `"s"` already
holds hash `"h"`, so re-uploading content with that hash is rejected and
the state is unchanged. -/
theorem conflict_aborts_without_side_effects_witness :
    (save_file_with_duplicate_check (fun _ => "h")
        (SysState.mk (SessionLedger.mk [("s", ["h"])] [("s", [("f", "h")])]) (LocalDisk.mk [] []))
        [1] "f" "s" "g" 0).2
      = SysState.mk (SessionLedger.mk [("s", ["h"])] [("s", [("f", "h")])]) (LocalDisk.mk [] []) :=
  (conflict_aborts_without_side_effects (fun _ => "h")
    (SysState.mk (SessionLedger.mk [("s", ["h"])] [("s", [("f", "h")])]) (LocalDisk.mk [] []))
    [1] "f" "s" "g" 0 (Or.inl (by decide))).1

/-- C5: an object mid-write (blob present, metadata sidecar not yet
written) is invisible to the sweep: if no sidecar exists for a name, the
sweep leaves that blob exactly as it found it, and `_save_local` is the
composition writing the blob strictly before the sidecar. -/
theorem midwrite_blob_invisible_to_sweep (d : LocalDisk) (name : String)
    (content : List Nat) (now ttl : Int) (hno : lookupA name d.metas = none) :
    lookupA name (cleanup_local_files (write_blob d name content) now ttl).blobs = some content
    ∧ (∀ c t, save_local d c name t
        = ((name, "/download/" ++ name), write_meta (write_blob d name c) name t)) := by
  constructor
  · rw [cleanup_lookup_blobs]
    have hcond : ¬ ∃ p ∈ (write_blob d name content).metas,
        p.1 = name ∧ p.2.upload_time < now - ttl := by
      rintro ⟨p, hp, hpk, _⟩
      exact (lookupA_none_iff.mp hno p hp) hpk
    rw [if_neg hcond]
    exact lookupA_insertA_self name content d.blobs
  · intro c t
    rfl

/-- Witness for C5: a freshly written blob with no sidecar survives a
sweep that deletes an older object. -/
theorem midwrite_blob_invisible_to_sweep_witness :
    lookupA "new" (cleanup_local_files
        (write_blob (LocalDisk.mk [("old", [0])] [("old", Meta.mk 0 "old")]) "new" [5]) 100 1).blobs
      = some [5] :=
  (midwrite_blob_invisible_to_sweep (LocalDisk.mk [("old", [0])] [("old", Meta.mk 0 "old")])
    "new" [5] 100 1 (by decide)).1

/-- C6 counterexample: deleting a stored name whose blob is absent
returns success `true`, not `false` as the claim states. -/
theorem delete_absent_reports_success :
    lookupA "x" (LocalDisk.mk [] []).blobs = none
    ∧ (delete_local (LocalDisk.mk [] []) "x").1 = true :=
  ⟨rfl, rfl⟩

/-- C6 amended: local delete is total and idempotent — it returns success
`true` whether or not the blob exists, removes both the blob and its
sidecar, deleting again changes nothing, and other stored names are left
untouched. -/
theorem delete_local_idempotent_total (d : LocalDisk) (name k : String) :
    (delete_local d name).1 = true
    ∧ lookupA name (delete_local d name).2.blobs = none
    ∧ lookupA name (delete_local d name).2.metas = none
    ∧ (delete_local (delete_local d name).2 name).2 = (delete_local d name).2
    ∧ (k ≠ name → lookupA k (delete_local d name).2.blobs = lookupA k d.blobs
        ∧ lookupA k (delete_local d name).2.metas = lookupA k d.metas) := by
  refine ⟨rfl, lookupA_eraseA_self name d.blobs, lookupA_eraseA_self name d.metas, ?_,
    fun hk => ⟨lookupA_eraseA_ne hk d.blobs, lookupA_eraseA_ne hk d.metas⟩⟩
  show LocalDisk.mk (eraseA name (eraseA name d.blobs)) (eraseA name (eraseA name d.metas))
    = LocalDisk.mk (eraseA name d.blobs) (eraseA name d.metas)
  rw [eraseA_of_lookupA_none (lookupA_eraseA_self name d.blobs),
    eraseA_of_lookupA_none (lookupA_eraseA_self name d.metas)]

/-- Witness for the amended C6 at a concrete input: deleting `"a"`
succeeds and leaves `"b"` untouched. -/
theorem delete_local_idempotent_total_witness :
    ("b" : String) ≠ "a"
    ∧ (lookupA "b" (delete_local (LocalDisk.mk [("a", [1]), ("b", [2])] []) "a").2.blobs
        = lookupA "b" (LocalDisk.mk [("a", [1]), ("b", [2])] []).blobs
      ∧ lookupA "b" (delete_local (LocalDisk.mk [("a", [1]), ("b", [2])] []) "a").2.metas
        = lookupA "b" (LocalDisk.mk [("a", [1]), ("b", [2])] []).metas) :=
  ⟨by decide,
    (delete_local_idempotent_total (LocalDisk.mk [("a", [1]), ("b", [2])] []) "a" "b").2.2.2.2
      (by decide)⟩

/-- C7 (code evaluated at the failing input): the metadata sidecar
written by `save_file` records in its `original_filename` field the
generated stored name `gen`, for every caller-supplied original filename
`ofn` — the original filename is never written to the sidecar, because
`save_file` passes the generated unique name to `_save_local`. -/
theorem sidecar_records_generated_name (hashFn : List Nat → String) (st : SysState)
    (content : List Nat) (ofn : String) (sid : Option String) (gen : String) (now : Int) :
    lookupA gen (save_file hashFn st content ofn sid gen now).2.disk.metas
      = some (Meta.mk now gen) := by
  have hd : (save_file hashFn st content ofn sid gen now).2.disk.metas
      = insertA gen (Meta.mk now gen) st.disk.metas := by
    cases sid <;> rfl
  rw [hd]
  exact lookupA_insertA_self gen (Meta.mk now gen) st.disk.metas

/-- C9: the exposed download operation distinguishes backends — S3 mode
yields the Unsupported outcome (HTTP 501), which is a different result
from NotFound (HTTP 404); local mode serves the stored bytes when the
blob exists and NotFound when it does not. -/
theorem download_distinguishes_unsupported (d : LocalDisk) (name : String) :
    download_file d false name = DownloadResult.unsupported
    ∧ DownloadResult.unsupported ≠ DownloadResult.notFound
    ∧ (∀ c, lookupA name d.blobs = some c →
        download_file d true name = DownloadResult.fileResponse c)
    ∧ (lookupA name d.blobs = none → download_file d true name = DownloadResult.notFound) := by
  refine ⟨rfl, by simp, ?_, ?_⟩
  · intro c hc
    simp [download_file, get_file, hc]
  · intro h
    simp [download_file, get_file, h]

/-- Witness for C9 at a concrete store: remote mode reports Unsupported,
local mode returns the stored bytes. -/
theorem download_distinguishes_unsupported_witness :
    download_file (LocalDisk.mk [("a", [7])] []) false "a" = DownloadResult.unsupported
    ∧ download_file (LocalDisk.mk [("a", [7])] []) true "a" = DownloadResult.fileResponse [7] :=
  ⟨(download_distinguishes_unsupported (LocalDisk.mk [("a", [7])] []) "a").1,
    (download_distinguishes_unsupported (LocalDisk.mk [("a", [7])] []) "a").2.2.1 [7] (by decide)⟩

/-- C4: the sweep deletes a stored object exactly when its age strictly
exceeds the TTL (`now - uploadTime > ttl`); an object whose age equals
the TTL is retained untouched; and every deletion removes the blob and
its metadata sidecar together. -/
theorem sweep_deletes_iff_expired (d : LocalDisk) (now ttl : Int) (name : String) (m : Meta)
    (hnd : (d.metas.map Prod.fst).Nodup) (hm : lookupA name d.metas = some m) :
    (now - m.upload_time > ttl →
        lookupA name (cleanup_local_files d now ttl).blobs = none
      ∧ lookupA name (cleanup_local_files d now ttl).metas = none)
    ∧ (now - m.upload_time ≤ ttl →
        lookupA name (cleanup_local_files d now ttl).blobs = lookupA name d.blobs
      ∧ lookupA name (cleanup_local_files d now ttl).metas = some m) := by
  have hiff : (∃ p ∈ d.metas, p.1 = name ∧ p.2.upload_time < now - ttl)
      ↔ m.upload_time < now - ttl := by
    constructor
    · rintro ⟨p, hp, hpk, hpe⟩
      have hp2 : (name, p.2) ∈ d.metas := by
        rw [← hpk]
        exact hp
      have hlp := lookupA_eq_of_mem_nodup hnd hp2
      rw [hm] at hlp
      cases Option.some.inj hlp
      exact hpe
    · intro he
      exact ⟨(name, m), mem_of_lookupA hm, rfl, he⟩
  constructor
  · intro hage
    have he : m.upload_time < now - ttl := by omega
    constructor
    · rw [cleanup_lookup_blobs, if_pos (hiff.mpr he)]
    · rw [cleanup_lookup_metas, if_pos (hiff.mpr he)]
  · intro hage
    have he : ¬ m.upload_time < now - ttl := by omega
    constructor
    · rw [cleanup_lookup_blobs, if_neg (fun hc => he (hiff.mp hc))]
    · rw [cleanup_lookup_metas, if_neg (fun hc => he (hiff.mp hc))]
      exact hm

/-- Witness for C4 at a concrete store with `now = 10`, `ttl = 5`: object
`"a"` of age `10` is deleted blob-and-sidecar, while object `"b"` of age
exactly `5` (the boundary) is retained. -/
theorem sweep_deletes_iff_expired_witness :
    (lookupA "a" (cleanup_local_files
        (LocalDisk.mk [("a", [1]), ("b", [2])] [("a", Meta.mk 0 "a"), ("b", Meta.mk 5 "b")]) 10 5).blobs = none
      ∧ lookupA "a" (cleanup_local_files
        (LocalDisk.mk [("a", [1]), ("b", [2])] [("a", Meta.mk 0 "a"), ("b", Meta.mk 5 "b")]) 10 5).metas = none)
    ∧ (lookupA "b" (cleanup_local_files
        (LocalDisk.mk [("a", [1]), ("b", [2])] [("a", Meta.mk 0 "a"), ("b", Meta.mk 5 "b")]) 10 5).blobs
        = lookupA "b" (LocalDisk.mk [("a", [1]), ("b", [2])] [("a", Meta.mk 0 "a"), ("b", Meta.mk 5 "b")]).blobs
      ∧ lookupA "b" (cleanup_local_files
        (LocalDisk.mk [("a", [1]), ("b", [2])] [("a", Meta.mk 0 "a"), ("b", Meta.mk 5 "b")]) 10 5).metas
        = some (Meta.mk 5 "b")) :=
  ⟨(sweep_deletes_iff_expired
      (LocalDisk.mk [("a", [1]), ("b", [2])] [("a", Meta.mk 0 "a"), ("b", Meta.mk 5 "b")])
      10 5 "a" (Meta.mk 0 "a") (by decide) (by decide)).1 (by decide),
    (sweep_deletes_iff_expired
      (LocalDisk.mk [("a", [1]), ("b", [2])] [("a", Meta.mk 0 "a"), ("b", Meta.mk 5 "b")])
      10 5 "b" (Meta.mk 5 "b") (by decide) (by decide)).2 (by decide)⟩

/-! ### Branch characterizations of the duplicate-checked upload -/

theorem save_check_dup (hashFn : List Nat → String) (st : SysState) (content : List Nat)
    (ofn sid gen : String) (now : Int)
    (hc1 : (is_duplicate_in_session st.svc sid (hashFn content) ofn).1 = true) :
    save_file_with_duplicate_check hashFn st content ofn sid gen now
      = (⟨true, false, none, none, hashFn content⟩, st) := by
  simp [save_file_with_duplicate_check, hc1]

theorem save_check_name_conflict (hashFn : List Nat → String) (st : SysState)
    (content : List Nat) (ofn sid gen : String) (now : Int)
    (hc1 : (is_duplicate_in_session st.svc sid (hashFn content) ofn).1 = false)
    (hc2 : (is_duplicate_in_session st.svc sid (hashFn content) ofn).2 = true) :
    save_file_with_duplicate_check hashFn st content ofn sid gen now
      = (⟨false, true, none, none, hashFn content⟩, st) := by
  simp [save_file_with_duplicate_check, hc1, hc2]

theorem save_check_no_conflict (hashFn : List Nat → String) (st : SysState)
    (content : List Nat) (ofn sid gen : String) (now : Int)
    (hc1 : (is_duplicate_in_session st.svc sid (hashFn content) ofn).1 = false)
    (hc2 : (is_duplicate_in_session st.svc sid (hashFn content) ofn).2 = false) :
    save_file_with_duplicate_check hashFn st content ofn sid gen now
      = (⟨false, false, some gen, some ("/download/" ++ gen), hashFn content⟩,
          SysState.mk (if sid = "" then st.svc
              else add_file_to_session st.svc sid (hashFn content) ofn)
            (write_meta (write_blob st.disk gen content) gen now)) := by
  simp [save_file_with_duplicate_check, hc1, hc2, save_file, save_local]

/-- C8: clearing a session removes all of its ledger state; clearing a
session unknown to both maps changes nothing; clearing twice equals
clearing once; and after a clear the duplicate check finds no conflict
for any hash and filename, so the duplicate-checked upload stores the
file. -/
theorem clear_session_resets (svc : SessionLedger) (sid : String) :
    lookupA sid (clear_session svc sid).session_file_hashes = none
    ∧ lookupA sid (clear_session svc sid).session_filename_hashes = none
    ∧ (lookupA sid svc.session_file_hashes = none →
        lookupA sid svc.session_filename_hashes = none → clear_session svc sid = svc)
    ∧ clear_session (clear_session svc sid) sid = clear_session svc sid
    ∧ (∀ h f, is_duplicate_in_session (clear_session svc sid) sid h f = (false, false))
    ∧ (∀ hashFn content f gen now d,
        (save_file_with_duplicate_check hashFn (SysState.mk (clear_session svc sid) d)
          content f sid gen now).1.is_duplicate_hash = false
        ∧ (save_file_with_duplicate_check hashFn (SysState.mk (clear_session svc sid) d)
          content f sid gen now).1.is_same_name_different_content = false
        ∧ (save_file_with_duplicate_check hashFn (SysState.mk (clear_session svc sid) d)
          content f sid gen now).1.stored_filename = some gen) := by
  have hc : ∀ h f, is_duplicate_in_session (clear_session svc sid) sid h f = (false, false) := by
    intro h f
    simp [is_duplicate_in_session, clear_session, lookupA_eraseA_self]
  refine ⟨lookupA_eraseA_self sid svc.session_file_hashes,
    lookupA_eraseA_self sid svc.session_filename_hashes, ?_, ?_, hc, ?_⟩
  · intro ha hb
    show SessionLedger.mk (eraseA sid svc.session_file_hashes)
        (eraseA sid svc.session_filename_hashes) = svc
    rw [eraseA_of_lookupA_none ha, eraseA_of_lookupA_none hb]
  · show SessionLedger.mk (eraseA sid (eraseA sid svc.session_file_hashes))
        (eraseA sid (eraseA sid svc.session_filename_hashes))
      = SessionLedger.mk (eraseA sid svc.session_file_hashes)
        (eraseA sid svc.session_filename_hashes)
    rw [eraseA_of_lookupA_none (lookupA_eraseA_self sid svc.session_file_hashes),
      eraseA_of_lookupA_none (lookupA_eraseA_self sid svc.session_filename_hashes)]
  · intro hashFn content f gen now d
    have h1 : (is_duplicate_in_session (SysState.mk (clear_session svc sid) d).svc sid
        (hashFn content) f).1 = false := by
      rw [hc]
    have h2 : (is_duplicate_in_session (SysState.mk (clear_session svc sid) d).svc sid
        (hashFn content) f).2 = false := by
      rw [hc]
    rw [save_check_no_conflict hashFn (SysState.mk (clear_session svc sid) d)
      content f sid gen now h1 h2]
    exact ⟨rfl, rfl, rfl⟩

/-- Witness for C8: clearing an unknown session leaves the empty ledger
unchanged, and clearing a populated session empties its tracking. -/
theorem clear_session_resets_witness :
    clear_session (SessionLedger.mk [] []) "s" = SessionLedger.mk [] []
    ∧ lookupA "s" (clear_session
        (SessionLedger.mk [("s", ["h"])] [("s", [("f", "h")])]) "s").session_file_hashes = none :=
  ⟨(clear_session_resets (SessionLedger.mk [] []) "s").2.2.1 rfl rfl,
    (clear_session_resets (SessionLedger.mk [("s", ["h"])] [("s", [("f", "h")])]) "s").1⟩

theorem dup_flag_after_add (svc : SessionLedger) (sid h f f2 : String) :
    (is_duplicate_in_session (add_file_to_session svc sid h f) sid h f2).1 = true := by
  have hl : lookupA sid (add_file_to_session svc sid h f).session_file_hashes
      = some (insertSet h ((lookupA sid svc.session_file_hashes).getD [])) :=
    lookupA_insertA_self sid _ svc.session_file_hashes
  simp only [is_duplicate_in_session, hl]
  simp [self_mem_insertSet]

theorem count_after_add (svc : SessionLedger) (sid h f : String)
    (hnot : (is_duplicate_in_session svc sid h f).1 = false) :
    get_session_file_count (add_file_to_session svc sid h f) sid
      = get_session_file_count svc sid + 1 := by
  have hl : lookupA sid (add_file_to_session svc sid h f).session_file_hashes
      = some (insertSet h ((lookupA sid svc.session_file_hashes).getD [])) :=
    lookupA_insertA_self sid _ svc.session_file_hashes
  simp only [get_session_file_count, hl]
  cases hcase : lookupA sid svc.session_file_hashes with
  | none => simp [hcase, insertSet]
  | some hs =>
    have hmem : h ∉ hs := by
      simp only [is_duplicate_in_session, hcase] at hnot
      simpa using hnot
    simp [hcase, length_insertSet_of_not_mem hmem]

/-- C2: uploading identical bytes twice into the same session, under any
two filenames and generated names, stores exactly one new object and
raises the session's count by exactly one: the first upload succeeds and
the second is rejected as a hash duplicate, leaving the state exactly as
the first upload left it. -/
theorem upload_identical_bytes_twice (hashFn : List Nat → String) (st : SysState)
    (content : List Nat) (f1 f2 sid g1 g2 : String) (t1 t2 : Int)
    (r1 r2 : DupCheckResult) (st1 st2 : SysState)
    (hsid : sid ≠ "")
    (hcheck : is_duplicate_in_session st.svc sid (hashFn content) f1 = (false, false))
    (hfresh : lookupA g1 st.disk.blobs = none)
    (h1 : save_file_with_duplicate_check hashFn st content f1 sid g1 t1 = (r1, st1))
    (h2 : save_file_with_duplicate_check hashFn st1 content f2 sid g2 t2 = (r2, st2)) :
    r1.is_duplicate_hash = false ∧ r1.is_same_name_different_content = false
    ∧ r1.stored_filename = some g1
    ∧ r2.is_duplicate_hash = true ∧ r2.stored_filename = none
    ∧ st2 = st1
    ∧ st1.disk.blobs.length = st.disk.blobs.length + 1
    ∧ get_session_file_count st1.svc sid = get_session_file_count st.svc sid + 1 := by
  have hb1 : (is_duplicate_in_session st.svc sid (hashFn content) f1).1 = false := by
    rw [hcheck]
  have hb2 : (is_duplicate_in_session st.svc sid (hashFn content) f1).2 = false := by
    rw [hcheck]
  rw [save_check_no_conflict hashFn st content f1 sid g1 t1 hb1 hb2, if_neg hsid] at h1
  injection h1 with hr1 hst1
  subst hr1
  subst hst1
  have hdup2 : (is_duplicate_in_session
      (SysState.mk (add_file_to_session st.svc sid (hashFn content) f1)
        (write_meta (write_blob st.disk g1 content) g1 t1)).svc
      sid (hashFn content) f2).1 = true :=
    dup_flag_after_add st.svc sid (hashFn content) f1 f2
  rw [save_check_dup hashFn
    (SysState.mk (add_file_to_session st.svc sid (hashFn content) f1)
      (write_meta (write_blob st.disk g1 content) g1 t1))
    content f2 sid g2 t2 hdup2] at h2
  injection h2 with hr2 hst2
  subst hr2
  subst hst2
  refine ⟨rfl, rfl, rfl, rfl, rfl, rfl, ?_, ?_⟩
  · exact length_insertA_of_none content hfresh
  · exact count_after_add st.svc sid (hashFn content) f1 hb1

/-- Witness for C2: starting from the empty state, uploading bytes `[1]`
as `cube.stl` succeeds and re-uploading the same bytes as `cube2.stl` is
rejected, leaving one blob and a session count of one. -/
theorem upload_identical_bytes_twice_witness :
    (save_file_with_duplicate_check (fun _ => "h1")
        (SysState.mk (SessionLedger.mk [] []) (LocalDisk.mk [] []))
        [1] "cube.stl" "s1" "g1" 0
      = ((save_file_with_duplicate_check (fun _ => "h1")
          (SysState.mk (SessionLedger.mk [] []) (LocalDisk.mk [] []))
          [1] "cube.stl" "s1" "g1" 0).1,
        (save_file_with_duplicate_check (fun _ => "h1")
          (SysState.mk (SessionLedger.mk [] []) (LocalDisk.mk [] []))
          [1] "cube.stl" "s1" "g1" 0).2))
    ∧ ((save_file_with_duplicate_check (fun _ => "h1")
          (SysState.mk (SessionLedger.mk [] []) (LocalDisk.mk [] []))
          [1] "cube.stl" "s1" "g1" 0).1.is_duplicate_hash = false
      ∧ (save_file_with_duplicate_check (fun _ => "h1")
          (SysState.mk (SessionLedger.mk [] []) (LocalDisk.mk [] []))
          [1] "cube.stl" "s1" "g1" 0).1.is_same_name_different_content = false
      ∧ (save_file_with_duplicate_check (fun _ => "h1")
          (SysState.mk (SessionLedger.mk [] []) (LocalDisk.mk [] []))
          [1] "cube.stl" "s1" "g1" 0).1.stored_filename = some "g1"
      ∧ (save_file_with_duplicate_check (fun _ => "h1")
          ((save_file_with_duplicate_check (fun _ => "h1")
            (SysState.mk (SessionLedger.mk [] []) (LocalDisk.mk [] []))
            [1] "cube.stl" "s1" "g1" 0).2)
          [1] "cube2.stl" "s1" "g2" 1).1.is_duplicate_hash = true
      ∧ (save_file_with_duplicate_check (fun _ => "h1")
          ((save_file_with_duplicate_check (fun _ => "h1")
            (SysState.mk (SessionLedger.mk [] []) (LocalDisk.mk [] []))
            [1] "cube.stl" "s1" "g1" 0).2)
          [1] "cube2.stl" "s1" "g2" 1).1.stored_filename = none
      ∧ (save_file_with_duplicate_check (fun _ => "h1")
          ((save_file_with_duplicate_check (fun _ => "h1")
            (SysState.mk (SessionLedger.mk [] []) (LocalDisk.mk [] []))
            [1] "cube.stl" "s1" "g1" 0).2)
          [1] "cube2.stl" "s1" "g2" 1).2
        = (save_file_with_duplicate_check (fun _ => "h1")
            (SysState.mk (SessionLedger.mk [] []) (LocalDisk.mk [] []))
            [1] "cube.stl" "s1" "g1" 0).2
      ∧ (save_file_with_duplicate_check (fun _ => "h1")
          (SysState.mk (SessionLedger.mk [] []) (LocalDisk.mk [] []))
          [1] "cube.stl" "s1" "g1" 0).2.disk.blobs.length
        = (SysState.mk (SessionLedger.mk [] []) (LocalDisk.mk [] [])).disk.blobs.length + 1
      ∧ get_session_file_count (save_file_with_duplicate_check (fun _ => "h1")
          (SysState.mk (SessionLedger.mk [] []) (LocalDisk.mk [] []))
          [1] "cube.stl" "s1" "g1" 0).2.svc "s1"
        = get_session_file_count (SysState.mk (SessionLedger.mk [] []) (LocalDisk.mk [] [])).svc "s1" + 1) :=
  ⟨rfl,
    upload_identical_bytes_twice (fun _ => "h1")
      (SysState.mk (SessionLedger.mk [] []) (LocalDisk.mk [] []))
      [1] "cube.stl" "cube2.stl" "s1" "g1" "g2" 0 1 _ _ _ _
      (by decide) (by decide) (by decide) rfl rfl⟩

theorem is_dup_flag_hash (svc : SessionLedger) (sid h f : String) :
    (is_duplicate_in_session svc sid h f).1 = true ↔ h ∈ sessionHashSet svc sid := by
  cases hc : lookupA sid svc.session_file_hashes with
  | none => simp [is_duplicate_in_session, hc, sessionHashSet]
  | some hs => simp [is_duplicate_in_session, hc, sessionHashSet]

theorem is_dup_flag_name (svc : SessionLedger) (sid h f : String)
    (hkeys : lookupA sid svc.session_filename_hashes ≠ none →
      lookupA sid svc.session_file_hashes ≠ none)
    (hne : ∀ h', registeredHash svc sid f = some h' → h' ≠ "") :
    (is_duplicate_in_session svc sid h f).2 = true
      ↔ ∃ h', registeredHash svc sid f = some h' ∧ h' ≠ h := by
  cases hc : lookupA sid svc.session_file_hashes with
  | none =>
    have hf : lookupA sid svc.session_filename_hashes = none := by
      by_contra hcon
      exact (hkeys hcon) hc
    simp [is_duplicate_in_session, hc, registeredHash, hf]
  | some hs =>
    cases hf : lookupA sid svc.session_filename_hashes with
    | none => simp [is_duplicate_in_session, hc, hf, registeredHash]
    | some fm =>
      cases hff : lookupA f fm with
      | none => simp [is_duplicate_in_session, hc, hf, hff, registeredHash]
      | some ex =>
        have hex : ex ≠ "" := hne ex (by simp [registeredHash, hf, hff])
        simp [is_duplicate_in_session, hc, hf, hff, registeredHash, hex]

theorem result_flags (hashFn : List Nat → String) (st : SysState) (content : List Nat)
    (ofn sid gen : String) (now : Int) :
    (save_file_with_duplicate_check hashFn st content ofn sid gen now).1.is_duplicate_hash
        = (is_duplicate_in_session st.svc sid (hashFn content) ofn).1
    ∧ (save_file_with_duplicate_check hashFn st content ofn sid gen now).1.is_same_name_different_content
        = (!(is_duplicate_in_session st.svc sid (hashFn content) ofn).1
            && (is_duplicate_in_session st.svc sid (hashFn content) ofn).2) := by
  by_cases h1 : (is_duplicate_in_session st.svc sid (hashFn content) ofn).1 = true
  · rw [save_check_dup hashFn st content ofn sid gen now h1, h1]
    exact ⟨rfl, rfl⟩
  · have h1f : (is_duplicate_in_session st.svc sid (hashFn content) ofn).1 = false := by
      simpa using h1
    by_cases h2 : (is_duplicate_in_session st.svc sid (hashFn content) ofn).2 = true
    · rw [save_check_name_conflict hashFn st content ofn sid gen now h1f h2, h1f, h2]
      exact ⟨rfl, rfl⟩
    · have h2f : (is_duplicate_in_session st.svc sid (hashFn content) ofn).2 = false := by
        simpa using h2
      rw [save_check_no_conflict hashFn st content ofn sid gen now h1f h2f, h1f, h2f]
      exact ⟨rfl, rfl⟩

/-- C1: the duplicate check classifies exactly as specified: the
hash-duplicate flag of the duplicate-checked upload fires iff the hash is
already in the session's hash set (regardless of filename); the raw
name-conflict flag of `is_duplicate_in_session` fires iff the filename is
registered under a different hash; the upload reports a name conflict iff
the name condition holds and the hash condition does not (hash duplicate
takes priority when both hold); and when neither condition holds no
conflict is reported.  The two hypotheses are invariants of reachable
ledgers: key coherence between the two session maps, and registered
hashes being non-empty strings (SHA-256 hex digests). -/
theorem duplicate_check_classification (hashFn : List Nat → String) (st : SysState)
    (content : List Nat) (ofn sid gen : String) (now : Int)
    (hkeys : lookupA sid st.svc.session_filename_hashes ≠ none →
      lookupA sid st.svc.session_file_hashes ≠ none)
    (hne : ∀ h', registeredHash st.svc sid ofn = some h' → h' ≠ "") :
    ((save_file_with_duplicate_check hashFn st content ofn sid gen now).1.is_duplicate_hash = true
      ↔ hashFn content ∈ sessionHashSet st.svc sid)
    ∧ ((is_duplicate_in_session st.svc sid (hashFn content) ofn).2 = true
      ↔ ∃ h', registeredHash st.svc sid ofn = some h' ∧ h' ≠ hashFn content)
    ∧ ((save_file_with_duplicate_check hashFn st content ofn sid gen now).1.is_same_name_different_content = true
      ↔ (hashFn content ∉ sessionHashSet st.svc sid
          ∧ ∃ h', registeredHash st.svc sid ofn = some h' ∧ h' ≠ hashFn content))
    ∧ ((hashFn content ∉ sessionHashSet st.svc sid
        ∧ ¬ ∃ h', registeredHash st.svc sid ofn = some h' ∧ h' ≠ hashFn content) →
        (save_file_with_duplicate_check hashFn st content ofn sid gen now).1.is_duplicate_hash = false
        ∧ (save_file_with_duplicate_check hashFn st content ofn sid gen now).1.is_same_name_different_content = false) := by
  obtain ⟨e1, e2⟩ := result_flags hashFn st content ofn sid gen now
  have hf1 := is_dup_flag_hash st.svc sid (hashFn content) ofn
  have hf2 := is_dup_flag_name st.svc sid (hashFn content) ofn hkeys hne
  refine ⟨by rw [e1]; exact hf1, hf2, ?_, ?_⟩
  · rw [e2, Bool.and_eq_true, Bool.not_eq_true']
    constructor
    · rintro ⟨ha, hb⟩
      refine ⟨fun hm => ?_, hf2.mp hb⟩
      rw [hf1.mpr hm] at ha
      cases ha
    · rintro ⟨ha, hb⟩
      refine ⟨?_, hf2.mpr hb⟩
      cases hcase : (is_duplicate_in_session st.svc sid (hashFn content) ofn).1 with
      | false => rfl
      | true => exact absurd (hf1.mp hcase) ha
  · rintro ⟨ha, hb⟩
    constructor
    · rw [e1]
      cases hcase : (is_duplicate_in_session st.svc sid (hashFn content) ofn).1 with
      | false => rfl
      | true => exact absurd (hf1.mp hcase) ha
    · rw [e2]
      cases hcase2 : (is_duplicate_in_session st.svc sid (hashFn content) ofn).2 with
      | false => simp
      | true => exact absurd (hf2.mp hcase2) hb

/-- Witness for C1 at a concrete ledger where the filename is registered
under a different hash: the name-conflict condition holds and the check
reports it. -/
theorem duplicate_check_classification_witness :
    ((is_duplicate_in_session (SessionLedger.mk [("s", ["h1"])] [("s", [("f1", "h1")])])
        "s" "h2" "f1").2 = true
      ↔ ∃ h', registeredHash (SessionLedger.mk [("s", ["h1"])] [("s", [("f1", "h1")])])
          "s" "f1" = some h' ∧ h' ≠ "h2") :=
  (duplicate_check_classification (fun _ => "h2")
    (SysState.mk (SessionLedger.mk [("s", ["h1"])] [("s", [("f1", "h1")])]) (LocalDisk.mk [] []))
    [1] "f1" "s" "g" 0
    (fun _ => by decide)
    (by
      intro h' hh'
      have hh2 : some "h1" = some h' := hh'
      cases Option.some.inj hh2
      decide)).2.1

/-! ### Preservation of the ledger invariant -/

theorem ledgerInv_nil : LedgerInv (SessionLedger.mk [] []) := by
  refine ⟨?_, ?_, ?_⟩
  · intro s
    simp [lookupA]
  · intro s fm hfm
    exact Option.noConfusion hfm
  · intro s hs hlook
    exact Option.noConfusion hlook

theorem ledgerInv_add (svc : SessionLedger) (sid h f : String) (hinv : LedgerInv svc) :
    LedgerInv (add_file_to_session svc sid h f) := by
  obtain ⟨hkc, hhc, hnd⟩ := hinv
  have hl1 : lookupA sid (add_file_to_session svc sid h f).session_file_hashes
      = some (insertSet h ((lookupA sid svc.session_file_hashes).getD [])) :=
    lookupA_insertA_self sid _ svc.session_file_hashes
  have hl2 : lookupA sid (add_file_to_session svc sid h f).session_filename_hashes
      = some (insertA f h ((lookupA sid svc.session_filename_hashes).getD [])) :=
    lookupA_insertA_self sid _ svc.session_filename_hashes
  refine ⟨?_, ?_, ?_⟩
  · intro s
    by_cases hs : s = sid
    · subst hs
      rw [hl1, hl2]
      simp
    · have e1 : lookupA s (add_file_to_session svc sid h f).session_file_hashes
          = lookupA s svc.session_file_hashes := lookupA_insertA_ne hs _ _
      have e2 : lookupA s (add_file_to_session svc sid h f).session_filename_hashes
          = lookupA s svc.session_filename_hashes := lookupA_insertA_ne hs _ _
      rw [e1, e2]
      exact hkc s
  · intro s fm hfm f' h' hf'
    by_cases hs : s = sid
    · subst hs
      rw [hl2] at hfm
      cases Option.some.inj hfm
      by_cases hff : f' = f
      · subst hff
        rw [lookupA_insertA_self] at hf'
        cases Option.some.inj hf'
        exact ⟨_, hl1, self_mem_insertSet h _⟩
      · rw [lookupA_insertA_ne hff] at hf'
        cases hfm0 : lookupA s svc.session_filename_hashes with
        | none =>
          rw [hfm0] at hf'
          simp [lookupA] at hf'
        | some fmOld =>
          rw [hfm0] at hf'
          obtain ⟨hsOld, hlook, hmem⟩ := hhc s fmOld hfm0 f' h' hf'
          refine ⟨_, hl1, ?_⟩
          rw [hlook]
          exact mem_insertSet.mpr (Or.inr hmem)
    · have e2 : lookupA s (add_file_to_session svc sid h f).session_filename_hashes
          = lookupA s svc.session_filename_hashes := lookupA_insertA_ne hs _ _
      rw [e2] at hfm
      obtain ⟨hs0, hlook, hmem⟩ := hhc s fm hfm f' h' hf'
      have e1 : lookupA s (add_file_to_session svc sid h f).session_file_hashes
          = lookupA s svc.session_file_hashes := lookupA_insertA_ne hs _ _
      refine ⟨hs0, ?_, hmem⟩
      rw [e1]
      exact hlook
  · intro s hs' hlook
    by_cases hs : s = sid
    · subst hs
      rw [hl1] at hlook
      cases Option.some.inj hlook
      apply insertSet_nodup
      cases hcase : lookupA s svc.session_file_hashes with
      | none => exact List.nodup_nil
      | some hsOld => exact hnd s hsOld hcase
    · have e1 : lookupA s (add_file_to_session svc sid h f).session_file_hashes
          = lookupA s svc.session_file_hashes := lookupA_insertA_ne hs _ _
      rw [e1] at hlook
      exact hnd s hs' hlook

theorem ledgerInv_clear (svc : SessionLedger) (sid : String) (hinv : LedgerInv svc) :
    LedgerInv (clear_session svc sid) := by
  obtain ⟨hkc, hhc, hnd⟩ := hinv
  refine ⟨?_, ?_, ?_⟩
  · intro s
    by_cases hs : s = sid
    · subst hs
      have e1 : lookupA s (clear_session svc s).session_file_hashes = none :=
        lookupA_eraseA_self s svc.session_file_hashes
      have e2 : lookupA s (clear_session svc s).session_filename_hashes = none :=
        lookupA_eraseA_self s svc.session_filename_hashes
      rw [e1, e2]
      simp
    · have e1 : lookupA s (clear_session svc sid).session_file_hashes
          = lookupA s svc.session_file_hashes := lookupA_eraseA_ne hs _
      have e2 : lookupA s (clear_session svc sid).session_filename_hashes
          = lookupA s svc.session_filename_hashes := lookupA_eraseA_ne hs _
      rw [e1, e2]
      exact hkc s
  · intro s fm hfm f' h' hf'
    by_cases hs : s = sid
    · subst hs
      have e2 : lookupA s (clear_session svc s).session_filename_hashes = none :=
        lookupA_eraseA_self s svc.session_filename_hashes
      rw [e2] at hfm
      exact Option.noConfusion hfm
    · have e2 : lookupA s (clear_session svc sid).session_filename_hashes
          = lookupA s svc.session_filename_hashes := lookupA_eraseA_ne hs _
      rw [e2] at hfm
      obtain ⟨hs0, hlook, hmem⟩ := hhc s fm hfm f' h' hf'
      have e1 : lookupA s (clear_session svc sid).session_file_hashes
          = lookupA s svc.session_file_hashes := lookupA_eraseA_ne hs _
      refine ⟨hs0, ?_, hmem⟩
      rw [e1]
      exact hlook
  · intro s hs' hlook
    by_cases hs : s = sid
    · subst hs
      have e1 : lookupA s (clear_session svc s).session_file_hashes = none :=
        lookupA_eraseA_self s svc.session_file_hashes
      rw [e1] at hlook
      exact Option.noConfusion hlook
    · have e1 : lookupA s (clear_session svc sid).session_file_hashes
          = lookupA s svc.session_file_hashes := lookupA_eraseA_ne hs _
      rw [e1] at hlook
      exact hnd s hs' hlook

theorem ledgerInv_dupcheck (hashFn : List Nat → String) (svc : SessionLedger) (d : LocalDisk)
    (content : List Nat) (f sid gen : String) (now : Int) (hinv : LedgerInv svc) :
    LedgerInv (save_file_with_duplicate_check hashFn (SysState.mk svc d)
      content f sid gen now).2.svc := by
  by_cases h1 : (is_duplicate_in_session (SysState.mk svc d).svc sid (hashFn content) f).1 = true
  · rw [save_check_dup hashFn (SysState.mk svc d) content f sid gen now h1]
    exact hinv
  · have h1f : (is_duplicate_in_session (SysState.mk svc d).svc sid (hashFn content) f).1 = false := by
      simpa using h1
    by_cases h2 : (is_duplicate_in_session (SysState.mk svc d).svc sid (hashFn content) f).2 = true
    · rw [save_check_name_conflict hashFn (SysState.mk svc d) content f sid gen now h1f h2]
      exact hinv
    · have h2f : (is_duplicate_in_session (SysState.mk svc d).svc sid (hashFn content) f).2 = false := by
        simpa using h2
      rw [save_check_no_conflict hashFn (SysState.mk svc d) content f sid gen now h1f h2f]
      by_cases hsid : sid = ""
      · rw [if_pos hsid]
        exact hinv
      · rw [if_neg hsid]
        exact ledgerInv_add svc sid (hashFn content) f hinv

theorem remove_eq_no_session (svc : SessionLedger) (sid f : String)
    (hfm : lookupA sid svc.session_filename_hashes = none) :
    remove_file_from_session svc sid f = (false, svc) := by
  simp only [remove_file_from_session, hfm]

theorem remove_eq_no_filename (svc : SessionLedger) (sid f : String)
    (fm : List (String × String))
    (hfm : lookupA sid svc.session_filename_hashes = some fm)
    (hf : lookupA f fm = none) :
    remove_file_from_session svc sid f = (false, svc) := by
  simp only [remove_file_from_session, hfm, hf]

theorem remove_eq_empty_hash (svc : SessionLedger) (sid f : String)
    (fm : List (String × String))
    (hfm : lookupA sid svc.session_filename_hashes = some fm)
    (hf : lookupA f fm = some "") :
    remove_file_from_session svc sid f = (false, svc) := by
  simp [remove_file_from_session, hfm, hf]

theorem remove_eq_found_some (svc : SessionLedger) (sid f : String)
    (fm : List (String × String)) (hx : String) (hs : List String)
    (hfm : lookupA sid svc.session_filename_hashes = some fm)
    (hf : lookupA f fm = some hx) (hne : hx ≠ "")
    (hhs : lookupA sid svc.session_file_hashes = some hs) :
    remove_file_from_session svc sid f
      = (true, SessionLedger.mk (insertA sid (discardSet hx hs) svc.session_file_hashes)
          (insertA sid (eraseA f fm) svc.session_filename_hashes)) := by
  simp only [remove_file_from_session, hfm, hf, if_neg hne, hhs]

theorem remove_eq_found_none (svc : SessionLedger) (sid f : String)
    (fm : List (String × String)) (hx : String)
    (hfm : lookupA sid svc.session_filename_hashes = some fm)
    (hf : lookupA f fm = some hx) (hne : hx ≠ "")
    (hhs : lookupA sid svc.session_file_hashes = none) :
    remove_file_from_session svc sid f
      = (true, SessionLedger.mk svc.session_file_hashes
          (insertA sid (eraseA f fm) svc.session_filename_hashes)) := by
  simp only [remove_file_from_session, hfm, hf, if_neg hne, hhs]

theorem remove_keyCoherent (svc : SessionLedger) (sid f : String) (hkc : KeyCoherent svc) :
    KeyCoherent (remove_file_from_session svc sid f).2 := by
  cases hfm : lookupA sid svc.session_filename_hashes with
  | none =>
    rw [remove_eq_no_session svc sid f hfm]
    exact hkc
  | some fm =>
    cases hf : lookupA f fm with
    | none =>
      rw [remove_eq_no_filename svc sid f fm hfm hf]
      exact hkc
    | some hx =>
      by_cases hemp : hx = ""
      · subst hemp
        rw [remove_eq_empty_hash svc sid f fm hfm hf]
        exact hkc
      · cases hhs : lookupA sid svc.session_file_hashes with
        | none =>
          have hcontra := (hkc sid).mp hhs
          rw [hfm] at hcontra
          exact Option.noConfusion hcontra
        | some hs =>
          rw [remove_eq_found_some svc sid f fm hx hs hfm hf hemp hhs]
          intro s
          by_cases hssid : s = sid
          · subst hssid
            rw [lookupA_insertA_self, lookupA_insertA_self]
            simp
          · rw [lookupA_insertA_ne hssid, lookupA_insertA_ne hssid]
            exact hkc s

theorem remove_setsNodup (svc : SessionLedger) (sid f : String) (hnd : SetsNodup svc) :
    SetsNodup (remove_file_from_session svc sid f).2 := by
  cases hfm : lookupA sid svc.session_filename_hashes with
  | none =>
    rw [remove_eq_no_session svc sid f hfm]
    exact hnd
  | some fm =>
    cases hf : lookupA f fm with
    | none =>
      rw [remove_eq_no_filename svc sid f fm hfm hf]
      exact hnd
    | some hx =>
      by_cases hemp : hx = ""
      · subst hemp
        rw [remove_eq_empty_hash svc sid f fm hfm hf]
        exact hnd
      · cases hhs : lookupA sid svc.session_file_hashes with
        | none =>
          rw [remove_eq_found_none svc sid f fm hx hfm hf hemp hhs]
          intro s hs' hlook
          exact hnd s hs' hlook
        | some hs =>
          rw [remove_eq_found_some svc sid f fm hx hs hfm hf hemp hhs]
          intro s hs' hlook
          by_cases hssid : s = sid
          · subst hssid
            rw [lookupA_insertA_self] at hlook
            cases Option.some.inj hlook
            exact discardSet_nodup (hnd s hs hhs)
          · rw [lookupA_insertA_ne hssid] at hlook
            exact hnd s hs' hlook

theorem remove_false_id (svc : SessionLedger) (sid f : String)
    (hfalse : (remove_file_from_session svc sid f).1 = false) :
    (remove_file_from_session svc sid f).2 = svc := by
  cases hfm : lookupA sid svc.session_filename_hashes with
  | none => rw [remove_eq_no_session svc sid f hfm]
  | some fm =>
    cases hf : lookupA f fm with
    | none => rw [remove_eq_no_filename svc sid f fm hfm hf]
    | some hx =>
      by_cases hemp : hx = ""
      · subst hemp
        rw [remove_eq_empty_hash svc sid f fm hfm hf]
      · exfalso
        cases hhs : lookupA sid svc.session_file_hashes with
        | none =>
          rw [remove_eq_found_none svc sid f fm hx hfm hf hemp hhs] at hfalse
          exact Bool.noConfusion hfalse
        | some hs =>
          rw [remove_eq_found_some svc sid f fm hx hs hfm hf hemp hhs] at hfalse
          exact Bool.noConfusion hfalse

theorem remove_hashesComplete (svc : SessionLedger) (sid f : String) (hinv : LedgerInv svc)
    (huniq : ∀ fm hx, lookupA sid svc.session_filename_hashes = some fm →
      lookupA f fm = some hx →
      ∀ f' h', lookupA f' fm = some h' → h' = hx → f' = f) :
    HashesComplete (remove_file_from_session svc sid f).2 := by
  obtain ⟨hkc, hhc, hnd⟩ := hinv
  cases hfm : lookupA sid svc.session_filename_hashes with
  | none =>
    rw [remove_eq_no_session svc sid f hfm]
    exact hhc
  | some fm =>
    cases hf : lookupA f fm with
    | none =>
      rw [remove_eq_no_filename svc sid f fm hfm hf]
      exact hhc
    | some hx =>
      by_cases hemp : hx = ""
      · subst hemp
        rw [remove_eq_empty_hash svc sid f fm hfm hf]
        exact hhc
      · cases hhs : lookupA sid svc.session_file_hashes with
        | none =>
          have hcontra := (hkc sid).mp hhs
          rw [hfm] at hcontra
          exact Option.noConfusion hcontra
        | some hs =>
          rw [remove_eq_found_some svc sid f fm hx hs hfm hf hemp hhs]
          intro s fm' hfm' f' h' hf'
          by_cases hssid : s = sid
          · subst hssid
            rw [lookupA_insertA_self] at hfm'
            cases Option.some.inj hfm'
            by_cases hff : f' = f
            · subst hff
              rw [lookupA_eraseA_self] at hf'
              exact Option.noConfusion hf'
            · rw [lookupA_eraseA_ne hff] at hf'
              obtain ⟨hs0, hlook0, hmem0⟩ := hhc s fm hfm f' h' hf'
              rw [hhs] at hlook0
              cases Option.some.inj hlook0
              refine ⟨discardSet hx hs, lookupA_insertA_self s _ _, ?_⟩
              rw [mem_discardSet]
              refine ⟨hmem0, ?_⟩
              intro hcontra
              exact hff (huniq fm hx hfm hf f' h' hf' hcontra)
          · rw [lookupA_insertA_ne hssid] at hfm'
            obtain ⟨hs0, hlook0, hmem0⟩ := hhc s fm' hfm' f' h' hf'
            refine ⟨hs0, ?_, hmem0⟩
            rw [lookupA_insertA_ne hssid]
            exact hlook0

theorem remove_count (svc : SessionLedger) (sid f : String) (hinv : LedgerInv svc)
    (htrue : (remove_file_from_session svc sid f).1 = true) :
    get_session_file_count (remove_file_from_session svc sid f).2 sid + 1
      = get_session_file_count svc sid := by
  obtain ⟨hkc, hhc, hnd⟩ := hinv
  cases hfm : lookupA sid svc.session_filename_hashes with
  | none =>
    rw [remove_eq_no_session svc sid f hfm] at htrue
    exact Bool.noConfusion htrue
  | some fm =>
    cases hf : lookupA f fm with
    | none =>
      rw [remove_eq_no_filename svc sid f fm hfm hf] at htrue
      exact Bool.noConfusion htrue
    | some hx =>
      by_cases hemp : hx = ""
      · subst hemp
        rw [remove_eq_empty_hash svc sid f fm hfm hf] at htrue
        exact Bool.noConfusion htrue
      · cases hhs : lookupA sid svc.session_file_hashes with
        | none =>
          have hcontra := (hkc sid).mp hhs
          rw [hfm] at hcontra
          exact Option.noConfusion hcontra
        | some hs =>
          rw [remove_eq_found_some svc sid f fm hx hs hfm hf hemp hhs]
          have hnew : lookupA sid (insertA sid (discardSet hx hs) svc.session_file_hashes)
              = some (discardSet hx hs) := lookupA_insertA_self sid _ _
          simp only [get_session_file_count, hnew, hhs]
          obtain ⟨hs0, hlook0, hmem0⟩ := hhc sid fm hfm f hx hf
          rw [hhs] at hlook0
          cases Option.some.inj hlook0
          exact length_discardSet (hnd sid hs hhs) hmem0

/-- C10 counterexample: a ledger reached by registering the same hash
under two filenames in one session satisfies the claimed invariant (key
coherence and hash-set membership of registered hashes, with
duplicate-free hash sets), yet unregistering one of the two filenames
returns true and leaves the other filename bound to a hash that is no
longer in the session's hash set — the invariant is not kept by
unregister. -/
theorem unregister_breaks_hash_membership :
    (KeyCoherent (add_file_to_session
        (add_file_to_session (SessionLedger.mk [] []) "s" "h" "f1") "s" "h" "f2")
      ∧ HashesComplete (add_file_to_session
        (add_file_to_session (SessionLedger.mk [] []) "s" "h" "f1") "s" "h" "f2")
      ∧ SetsNodup (add_file_to_session
        (add_file_to_session (SessionLedger.mk [] []) "s" "h" "f1") "s" "h" "f2"))
    ∧ (remove_file_from_session (add_file_to_session
        (add_file_to_session (SessionLedger.mk [] []) "s" "h" "f1") "s" "h" "f2") "s" "f1").1 = true
    ∧ ¬ HashesComplete (remove_file_from_session (add_file_to_session
        (add_file_to_session (SessionLedger.mk [] []) "s" "h" "f1") "s" "h" "f2") "s" "f1").2 := by
  have hA : add_file_to_session
      (add_file_to_session (SessionLedger.mk [] []) "s" "h" "f1") "s" "h" "f2"
      = SessionLedger.mk [("s", ["h"])] [("s", [("f1", "h"), ("f2", "h")])] := by decide
  have hR : remove_file_from_session
      (SessionLedger.mk [("s", ["h"])] [("s", [("f1", "h"), ("f2", "h")])]) "s" "f1"
      = (true, SessionLedger.mk [("s", ([] : List String))] [("s", [("f2", "h")])]) := by decide
  rw [hA, hR]
  refine ⟨⟨?_, ?_, ?_⟩, rfl, ?_⟩
  · intro s
    by_cases hq : ("s" : String) = s <;> simp [lookupA, hq]
  · intro s fm hfm f h hf
    by_cases hq : ("s" : String) = s
    · simp only [lookupA] at hfm
      rw [if_pos hq] at hfm
      cases Option.some.inj hfm
      simp only [lookupA] at hf
      by_cases h1 : ("f1" : String) = f
      · rw [if_pos h1] at hf
        cases Option.some.inj hf
        exact ⟨["h"], by simp [lookupA, hq], by simp⟩
      · rw [if_neg h1] at hf
        by_cases h2 : ("f2" : String) = f
        · rw [if_pos h2] at hf
          cases Option.some.inj hf
          exact ⟨["h"], by simp [lookupA, hq], by simp⟩
        · rw [if_neg h2] at hf
          exact Option.noConfusion hf
    · simp only [lookupA] at hfm
      rw [if_neg hq] at hfm
      exact Option.noConfusion hfm
  · intro s hs' hlook
    by_cases hq : ("s" : String) = s
    · simp only [lookupA] at hlook
      rw [if_pos hq] at hlook
      cases Option.some.inj hlook
      simp
    · simp only [lookupA] at hlook
      rw [if_neg hq] at hlook
      exact Option.noConfusion hlook
  · intro hHC
    have hinst := hHC "s" [("f2", "h")] (by decide) "f2" "h" (by decide)
    obtain ⟨hs0, hlook, hmem⟩ := hinst
    have hlook' : some ([] : List String) = some hs0 := hlook
    cases Option.some.inj hlook'
    exact absurd hmem (List.not_mem_nil "h")

/-- C10 amended: from any well-formed ledger state, register, clear, and
the duplicate-checked upload preserve the full invariant; unregister
always preserves key coherence and duplicate-freeness of the hash sets,
changes nothing when it returns false, preserves the hash-membership part
of the invariant when no other filename of the session is bound to the
removed hash (the counterexample shows this proviso is necessary), and
whenever it returns true it decreases the session's count by exactly
one. -/
theorem ledger_invariant_operations (svc : SessionLedger) (sid h f : String)
    (hinv : LedgerInv svc) :
    LedgerInv (add_file_to_session svc sid h f)
    ∧ LedgerInv (clear_session svc sid)
    ∧ (∀ hashFn content gen now d,
        LedgerInv (save_file_with_duplicate_check hashFn (SysState.mk svc d)
          content f sid gen now).2.svc)
    ∧ KeyCoherent (remove_file_from_session svc sid f).2
    ∧ SetsNodup (remove_file_from_session svc sid f).2
    ∧ ((remove_file_from_session svc sid f).1 = false →
        (remove_file_from_session svc sid f).2 = svc)
    ∧ ((∀ fm hx, lookupA sid svc.session_filename_hashes = some fm →
          lookupA f fm = some hx →
          ∀ f' h', lookupA f' fm = some h' → h' = hx → f' = f) →
        LedgerInv (remove_file_from_session svc sid f).2)
    ∧ ((remove_file_from_session svc sid f).1 = true →
        get_session_file_count (remove_file_from_session svc sid f).2 sid + 1
          = get_session_file_count svc sid) :=
  ⟨ledgerInv_add svc sid h f hinv,
    ledgerInv_clear svc sid hinv,
    fun hashFn content gen now d =>
      ledgerInv_dupcheck hashFn svc d content f sid gen now hinv,
    remove_keyCoherent svc sid f hinv.1,
    remove_setsNodup svc sid f hinv.2.2,
    fun hfalse => remove_false_id svc sid f hfalse,
    fun huniq => ⟨remove_keyCoherent svc sid f hinv.1,
      remove_hashesComplete svc sid f hinv huniq,
      remove_setsNodup svc sid f hinv.2.2⟩,
    fun htrue => remove_count svc sid f hinv htrue⟩

/-- Witness for the amended C10: from the empty ledger, registering a
file keeps the invariant, and unregistering the lone filename of a
one-file session returns true and drops the count from one to zero. -/
theorem ledger_invariant_operations_witness :
    LedgerInv (add_file_to_session (SessionLedger.mk [] []) "s" "h" "f")
    ∧ get_session_file_count (remove_file_from_session
        (SessionLedger.mk [("s", ["h"])] [("s", [("f", "h")])]) "s" "f").2 "s" + 1
      = get_session_file_count (SessionLedger.mk [("s", ["h"])] [("s", [("f", "h")])]) "s" :=
  ⟨(ledger_invariant_operations (SessionLedger.mk [] []) "s" "h" "f" ledgerInv_nil).1,
    (ledger_invariant_operations (SessionLedger.mk [("s", ["h"])] [("s", [("f", "h")])])
      "s" "h" "f"
      ⟨by intro s; by_cases hq : ("s" : String) = s <;> simp [lookupA, hq],
        by
          intro s fm hfm f' h' hf'
          by_cases hq : ("s" : String) = s
          · simp only [lookupA] at hfm
            rw [if_pos hq] at hfm
            cases Option.some.inj hfm
            simp only [lookupA] at hf'
            by_cases h1 : ("f" : String) = f'
            · rw [if_pos h1] at hf'
              cases Option.some.inj hf'
              exact ⟨["h"], by simp [lookupA, hq], by simp⟩
            · rw [if_neg h1] at hf'
              exact Option.noConfusion hf'
          · simp only [lookupA] at hfm
            rw [if_neg hq] at hfm
            exact Option.noConfusion hfm,
        by
          intro s hs' hlook
          by_cases hq : ("s" : String) = s
          · simp only [lookupA] at hlook
            rw [if_pos hq] at hlook
            cases Option.some.inj hlook
            simp
          · simp only [lookupA] at hlook
            rw [if_neg hq] at hlook
            exact Option.noConfusion hlook⟩).2.2.2.2.2.2.2
      (by decide)⟩

end InstantQuote
